import Mathlib

/-!
Verification of the oscWrench tracker relay (src/main.go).

Modelling conventions for the shallow embedding:

* Go `float32` values are modelled by `ℚ`.  Every constant appearing in the
  program and in the properties below (10, 170, 179, 180, 360, …) and every
  arithmetic step performed on them (`+ 180`, `- 360`, subtraction, absolute
  value, comparison) is exact in IEEE binary32 at the relevant magnitudes, so
  rational arithmetic is a faithful idealisation of the float32 computations.
* A Go `string` is modelled by its list of characters (`List Char`); all the
  addresses involved are ASCII, so `strings.Split`, `strings.Contains` and
  `strconv.Atoi` are modelled by character-list functions mirroring their
  behaviour (`goSplit`, `goContains`, `atoiChars`).
* The map `trackers map[int]*TrackerData` is modelled as `Int → Option
  TrackerData`.  Records are stored by value: each loop iteration of
  `processUpdates` has its own `data` variable (Go ≥ 1.22 per-iteration
  loop-variable semantics), so no aliasing between map entries arises.
* The single-consumer update channel is modelled by applying the loop body of
  `processUpdates` to one update (`processUpdate`) and, for a whole FIFO
  burst, folding it over a list of updates (`processUpdates`).
* The OSC transport is out of scope; `parseMessage` consumes a decoded
  message (address + typed argument list) and `forwardUpdatedData` returns
  the list of outbound messages it hands to the OSC client for one record.
-/

/-- A 3-component float vector, modelling Go `[3]float32`. -/
structure Vec3 where
  v0 : ℚ
  v1 : ℚ
  v2 : ℚ
deriving DecidableEq, Repr

/-- The all-zero vector, Go's zero value `[3]float32{}`. -/
def Vec3.zero : Vec3 := ⟨0, 0, 0⟩

/-- Component access by axis index, used to state per-axis properties. -/
def Vec3.axis (v : Vec3) (i : Fin 3) : ℚ :=
  if i.val = 0 then v.v0 else if i.val = 1 then v.v1 else v.v2

/-- Go struct `TrackerData`. -/
structure TrackerData where
  ID : Int
  Position : Vec3
  Rotation : Vec3
deriving DecidableEq, Repr

/-- Go's zero value `TrackerData{}`. -/
def TrackerData.zero : TrackerData := ⟨0, Vec3.zero, Vec3.zero⟩

/-- The `trackers` map of `TrackerManager`, keyed by tracker id. -/
def Store : Type := Int → Option TrackerData

/-- `detectOrientationInversion` from src/main.go: true when the absolute
per-axis difference between the old and the new rotation exceeds the fixed
170-degree threshold on some axis. -/
def detectOrientationInversion (old new : Vec3) : Bool :=
  let threshold : ℚ := 170
  decide (threshold < |old.v0 - new.v0|) ||
  decide (threshold < |old.v1 - new.v1|) ||
  decide (threshold < |old.v2 - new.v2|)

/-- Per-axis body of the loop in `invertOrientation`. -/
def invertAxis (q : ℚ) : ℚ :=
  let c := q + 180
  if c > 180 then c - 360 else c

/-- `invertOrientation` from src/main.go: adds 180 to every axis and wraps
back by 360 when the result exceeds 180. -/
def invertOrientation (orientation : Vec3) : Vec3 :=
  ⟨invertAxis orientation.v0, invertAxis orientation.v1, invertAxis orientation.v2⟩

/-- One iteration of the `processUpdates` loop of `TrackerManager`: correct
the rotation against the existing record (when one exists), store the update
wholesale under its id, and emit the stored value on the forward channel
(second component of the result). -/
def processUpdate (trackers : Store) (data : TrackerData) : Store × TrackerData :=
  let data' :=
    match trackers data.ID with
    | some tracker =>
        if detectOrientationInversion tracker.Rotation data.Rotation then
          { data with Rotation := invertOrientation data.Rotation }
        else data
    | none => data
  (fun id => if id = data.ID then some data' else trackers id, data')

/-- The `processUpdates` worker applied to a FIFO burst of updates: returns
the final store and the forwarded records in order. -/
def processUpdates (trackers : Store) : List TrackerData → Store × List TrackerData
  | [] => (trackers, [])
  | data :: rest =>
      let r := processUpdate trackers data
      let rs := processUpdates r.1 rest
      (rs.1, r.2 :: rs.2)

/-- `GetTrackerData` from src/main.go.  The Go method reads the map under a
read lock and performs no write; the third component is the `trackers` map
as it stands after the call, making the absence of mutation explicit. -/
def GetTrackerData (trackers : Store) (id : Int) : TrackerData × Bool × Store :=
  match trackers id with
  | some tracker => (tracker, true, trackers)
  | none => (TrackerData.zero, false, trackers)

-- Concrete stores used by the example-based properties below.

/-- A store holding a single record for id 1 with all-zero pose. -/
def storeZeroRot : Store :=
  fun id => if id = 1 then some ⟨1, Vec3.zero, Vec3.zero⟩ else none

/-- A store holding a single record for id 1 with rotation (175, 0, 0). -/
def storeRot175 : Store :=
  fun id => if id = 1 then some ⟨1, Vec3.zero, ⟨175, 0, 0⟩⟩ else none

/-- A position-only update for id 1 (rotation stays at its zero default). -/
def posOnlyUpdate : TrackerData := ⟨1, ⟨1, 2, 3⟩, Vec3.zero⟩

-- General facts about one step of the update worker, shared by the claim
-- theorems below.

/-- The worker stores the forwarded record under the update's id. -/
theorem processUpdate_stores (s : Store) (d : TrackerData) :
    (processUpdate s d).1 d.ID = some (processUpdate s d).2 := by
  simp [processUpdate]

/-- Characterisation of the record the worker stores and forwards. -/
theorem processUpdate_snd (s : Store) (d : TrackerData) :
    (processUpdate s d).2 =
      match s d.ID with
      | some tracker =>
          if detectOrientationInversion tracker.Rotation d.Rotation then
            { d with Rotation := invertOrientation d.Rotation }
          else d
      | none => d := rfl

/-- Ids other than the update's are untouched by one worker step. -/
theorem processUpdate_frame (s : Store) (d : TrackerData) (id : Int) (h : id ≠ d.ID) :
    (processUpdate s d).1 id = s id := by
  simp [processUpdate, h]

/-- C1, counterexample: starting from an empty store, a position-only update
for id 1 with position (1,2,3) followed by a rotation-only update with
rotation (10,0,0) does NOT leave the original position in the stored record
(the claim predicts stored position (1,2,3)). -/
theorem C1_counterexample :
    ((processUpdates (fun _ => none) [⟨1, ⟨1, 2, 3⟩, Vec3.zero⟩, ⟨1, Vec3.zero, ⟨10, 0, 0⟩⟩]).1 1).map
        TrackerData.Position ≠ some ⟨1, 2, 3⟩ := by
  with_unfolding_all decide

/-- C1, amended: `Upsert` does not merge onto the previous record — it
replaces the stored record wholesale with the (possibly rotation-corrected)
update.  The stored record always carries the update's own position field,
so the field absent from a one-field update is reset to its zero default
rather than carried over from the previous record. -/
theorem C1_theorem (s : Store) (d : TrackerData) :
    ∃ stored, (processUpdate s d).1 d.ID = some stored ∧ stored = (processUpdate s d).2 ∧
      stored.ID = d.ID ∧ stored.Position = d.Position ∧
      (stored.Rotation = d.Rotation ∨ stored.Rotation = invertOrientation d.Rotation) := by
  refine ⟨(processUpdate s d).2, processUpdate_stores s d, rfl, ?_, ?_, ?_⟩
  · rw [processUpdate_snd]
    cases s d.ID with
    | none => rfl
    | some t => cases hd : detectOrientationInversion t.Rotation d.Rotation <;> simp [hd]
  · rw [processUpdate_snd]
    cases s d.ID with
    | none => rfl
    | some t => cases hd : detectOrientationInversion t.Rotation d.Rotation <;> simp [hd]
  · rw [processUpdate_snd]
    cases s d.ID with
    | none => left; rfl
    | some t =>
        cases hd : detectOrientationInversion t.Rotation d.Rotation
        · left; simp [hd]
        · right; simp [hd]

/-- C2, counterexample: with prior rotation (0,0,0) stored for id 1, an
update with rotation (179,0,0) does NOT store rotation (−1,0,0) as the claim
predicts. -/
theorem C2_counterexample :
    ((processUpdate storeZeroRot ⟨1, Vec3.zero, ⟨179, 0, 0⟩⟩).1 1).map TrackerData.Rotation
      ≠ some ⟨-1, 0, 0⟩ := by
  with_unfolding_all decide

/-- C2, amended: with prior rotation (0,0,0) stored for id 1, the axis-0
delta 179 exceeds the 170-degree threshold and correction is triggered, but
the correction applies to all three axes: axis 0 becomes 179+180−360 = −1,
while axes 1 and 2 become 0+180 = 180 (not wrapped, since 180 is not
strictly greater than 180).  The stored rotation is (−1, 180, 180). -/
theorem C2_theorem :
    detectOrientationInversion Vec3.zero ⟨179, 0, 0⟩ = true ∧
    (processUpdate storeZeroRot ⟨1, Vec3.zero, ⟨179, 0, 0⟩⟩).1 1
      = some ⟨1, Vec3.zero, ⟨-1, 180, 180⟩⟩ := by
  with_unfolding_all decide

/-- C3, counterexample: with rotation (175,0,0) stored for id 1, a
position-only update (rotation at its zero default) triggers the inversion
correction — the stored rotation becomes invertOrientation (0,0,0) =
(180,180,180), which differs from the update's rotation — even though the
update carries no rotation payload. -/
theorem C3_counterexample :
    ((processUpdate storeRot175 posOnlyUpdate).1 1).map TrackerData.Rotation
        = some (invertOrientation Vec3.zero) ∧
      invertOrientation Vec3.zero ≠ Vec3.zero := by
  with_unfolding_all decide

/-- C3, amended: the inversion check runs whenever a prior record exists,
regardless of which payload the update carries (the record type cannot
distinguish an absent rotation from (0,0,0)).  What remains true is the
"only": the stored rotation differs from the update's rotation field only
when a prior record exists and detection fires against it, in which case
the stored rotation is the corrected vector. -/
theorem C3_theorem (s : Store) (d : TrackerData)
    (h : (processUpdate s d).2.Rotation ≠ d.Rotation) :
    ∃ prev, s d.ID = some prev ∧
      detectOrientationInversion prev.Rotation d.Rotation = true ∧
      (processUpdate s d).2.Rotation = invertOrientation d.Rotation := by
  rw [processUpdate_snd] at h
  rcases hs : s d.ID with _ | t <;> rw [hs] at h
  · simp at h
  · by_cases hd : detectOrientationInversion t.Rotation d.Rotation
    · exact ⟨t, rfl, hd, by rw [processUpdate_snd, hs]; simp [hd]⟩
    · simp [hd] at h

/-- C3, witness for the amended theorem: the position-only update against
the (175,0,0) prior record is a concrete input whose stored rotation was
altered, and the prior record with a firing detection is exhibited. -/
theorem C3_witness :
    (processUpdate storeRot175 posOnlyUpdate).2.Rotation ≠ posOnlyUpdate.Rotation ∧
    ∃ prev, storeRot175 posOnlyUpdate.ID = some prev ∧
      detectOrientationInversion prev.Rotation posOnlyUpdate.Rotation = true ∧
      (processUpdate storeRot175 posOnlyUpdate).2.Rotation
        = invertOrientation posOnlyUpdate.Rotation :=
  ⟨by with_unfolding_all decide, C3_theorem _ _ (by with_unfolding_all decide)⟩

/-- C4, confirmed: with a prior record, the new rotation is classified as
artifact-flipped if and only if the absolute difference between previous and
new rotation strictly exceeds 170 on some axis; and with prior rotation
(0,0,0) and new rotation (10,0,0) no delta exceeds 170, so the rotation is
stored unchanged. -/
theorem C4_theorem :
    (∀ old new : Vec3, detectOrientationInversion old new = true ↔
        (170 < |old.v0 - new.v0| ∨ 170 < |old.v1 - new.v1| ∨ 170 < |old.v2 - new.v2|)) ∧
    (processUpdate storeZeroRot ⟨1, Vec3.zero, ⟨10, 0, 0⟩⟩).1 1
      = some ⟨1, Vec3.zero, ⟨10, 0, 0⟩⟩ := by
  constructor
  · intro old new
    simp [detectOrientationInversion, or_assoc]
  · with_unfolding_all rfl

/-- C5, confirmed: when a prior record exists and the flip detection fires,
the stored rotation is exactly the corrected vector, and the correction is,
independently on each axis, `new + 180`, wrapped by −360 when the result
exceeds 180. -/
theorem C5_theorem (s : Store) (d prev : TrackerData)
    (h1 : s d.ID = some prev)
    (h2 : detectOrientationInversion prev.Rotation d.Rotation = true) :
    ((processUpdate s d).1 d.ID).map TrackerData.Rotation
        = some (invertOrientation d.Rotation) ∧
    invertOrientation d.Rotation =
      ⟨if d.Rotation.v0 + 180 > 180 then d.Rotation.v0 + 180 - 360 else d.Rotation.v0 + 180,
       if d.Rotation.v1 + 180 > 180 then d.Rotation.v1 + 180 - 360 else d.Rotation.v1 + 180,
       if d.Rotation.v2 + 180 > 180 then d.Rotation.v2 + 180 - 360 else d.Rotation.v2 + 180⟩ := by
  refine ⟨?_, rfl⟩
  rw [processUpdate_stores]
  rw [processUpdate_snd, h1]
  simp [h2]

/-- C5, witness: prior rotation (0,0,0) for id 1 and update rotation
(179,0,0) — detection fires and the stored rotation is the corrected
vector. -/
theorem C5_witness :
    storeZeroRot (1 : Int) = some ⟨1, Vec3.zero, Vec3.zero⟩ ∧
    detectOrientationInversion Vec3.zero (⟨179, 0, 0⟩ : Vec3) = true ∧
    ((processUpdate storeZeroRot ⟨1, Vec3.zero, ⟨179, 0, 0⟩⟩).1 1).map TrackerData.Rotation
        = some (invertOrientation ⟨179, 0, 0⟩) :=
  ⟨by with_unfolding_all rfl, by with_unfolding_all rfl,
    (C5_theorem storeZeroRot ⟨1, Vec3.zero, ⟨179, 0, 0⟩⟩ ⟨1, Vec3.zero, Vec3.zero⟩
      (by with_unfolding_all rfl) (by with_unfolding_all rfl)).1⟩

/-- C6, confirmed: when no prior record exists for the update's id, the
update is stored and forwarded exactly as it arrived — no inversion check or
correction is applied regardless of its rotation magnitude. -/
theorem C6_theorem (s : Store) (d : TrackerData) (h : s d.ID = none) :
    (processUpdate s d).1 d.ID = some d ∧ (processUpdate s d).2 = d := by
  have h2 : (processUpdate s d).2 = d := by rw [processUpdate_snd, h]
  exact ⟨by rw [processUpdate_stores, h2], h2⟩

/-- C6, witness: the first update for id 1 carrying rotation (179,0,0) is
stored exactly as (179,0,0) in the empty store. -/
theorem C6_witness :
    ((fun _ => none : Store) (1 : Int) = none) ∧
    (processUpdate (fun _ => none) ⟨1, Vec3.zero, ⟨179, 0, 0⟩⟩).1 1
        = some ⟨1, Vec3.zero, ⟨179, 0, 0⟩⟩ ∧
    (processUpdate (fun _ => none) ⟨1, Vec3.zero, ⟨179, 0, 0⟩⟩).2 = ⟨1, Vec3.zero, ⟨179, 0, 0⟩⟩ :=
  ⟨rfl, (C6_theorem (fun _ => none) ⟨1, Vec3.zero, ⟨179, 0, 0⟩⟩ rfl).1,
    (C6_theorem (fun _ => none) ⟨1, Vec3.zero, ⟨179, 0, 0⟩⟩ rfl).2⟩

/-- C10, confirmed: a read returns the all-zero record with found = false
for an id with no stored record, and for every id it leaves the store's
mapping unchanged. -/
theorem C10_theorem (s : Store) (id : Int) :
    (GetTrackerData s id).2.2 = s ∧
    (s id = none →
      (GetTrackerData s id).1 = TrackerData.zero ∧ (GetTrackerData s id).2.1 = false) := by
  cases h : s id <;> simp [GetTrackerData, h]

/-- C10, witness: reading id 5 from the empty store returns the zero record,
found = false, and the untouched store. -/
theorem C10_witness :
    (GetTrackerData (fun _ => none) 5).2.2 = (fun _ => none : Store) ∧
    (GetTrackerData (fun _ => none) 5).1 = TrackerData.zero ∧
    (GetTrackerData (fun _ => none) 5).2.1 = false :=
  ⟨(C10_theorem (fun _ => none) 5).1, (C10_theorem (fun _ => none) 5).2 rfl⟩

-- The wire-facing layer: Go strings are modelled as character lists, and
-- `strings.Split`, `strings.Contains`, `strconv.Atoi` and `fmt.Sprintf`'s
-- `%d` verb are modelled by the character-list functions below.

/-- Decimal digit character for a value 0–9, as produced by Go's `%d`. -/
def digitChar (d : Nat) : Char :=
  if d = 0 then '0' else if d = 1 then '1' else if d = 2 then '2' else if d = 3 then '3'
  else if d = 4 then '4' else if d = 5 then '5' else if d = 6 then '6' else if d = 7 then '7'
  else if d = 8 then '8' else '9'

/-- Numeric value of a decimal digit character, `none` on any other
character (the per-character check inside `strconv.Atoi`). -/
def digitVal (c : Char) : Option Nat :=
  if c = '0' then some 0 else if c = '1' then some 1 else if c = '2' then some 2
  else if c = '3' then some 3 else if c = '4' then some 4 else if c = '5' then some 5
  else if c = '6' then some 6 else if c = '7' then some 7 else if c = '8' then some 8
  else if c = '9' then some 9 else none

/-- Decimal digit characters of a natural number, most significant first;
fuel-based recursion so that it reduces inside the kernel.  With fuel at
least `n + 1` this is Go's `%d` rendering of `n`. -/
def natDigitsAux : Nat → Nat → List Char
  | 0, _ => []
  | fuel + 1, n =>
      if n < 10 then [digitChar n]
      else natDigitsAux fuel (n / 10) ++ [digitChar (n % 10)]

/-- Go's `%d` rendering of a natural number. -/
def natDigits (n : Nat) : List Char := natDigitsAux (n + 1) n

/-- Go `fmt.Sprintf("%d", i)` for an int, as a character list. -/
def intDecimal (i : Int) : List Char :=
  if i < 0 then '-' :: natDigits (-i).toNat else natDigits i.toNat

/-- Digit-folding loop of `strconv.Atoi`: consumes decimal digits
accumulating the value, and fails on any non-digit character. -/
def parseNatDigitsAux : List Char → Nat → Option Nat
  | [], acc => some acc
  | c :: cs, acc =>
      match digitVal c with
      | some d => parseNatDigitsAux cs (acc * 10 + d)
      | none => none

/-- `strconv.Atoi`: an optional single leading sign followed by at least one
decimal digit, rejecting values outside the 64-bit int range. -/
def atoiChars (s : List Char) : Option Int :=
  match s with
  | [] => none
  | c :: rest =>
      if c = '-' then
        if rest.isEmpty then none
        else (parseNatDigitsAux rest 0).bind fun n =>
          if n ≤ 2 ^ 63 then some (-(n : Int)) else none
      else if c = '+' then
        if rest.isEmpty then none
        else (parseNatDigitsAux rest 0).bind fun n =>
          if n ≤ 2 ^ 63 - 1 then some ((n : Int)) else none
      else
        (parseNatDigitsAux (c :: rest) 0).bind fun n =>
          if n ≤ 2 ^ 63 - 1 then some ((n : Int)) else none

/-- Go `strings.Split(s, "/")` for a one-character separator: the segments
between occurrences of the separator, empty segments included. -/
def goSplit (sep : Char) : List Char → List (List Char)
  | [] => [[]]
  | c :: cs =>
      if c = sep then [] :: goSplit sep cs
      else
        match goSplit sep cs with
        | [] => [[c]]
        | seg :: segs => (c :: seg) :: segs

/-- Whether `s` starts with `pre` (the anchored check performed at each
position by the search loop of `strings.Contains`). -/
def goHasPre : List Char → List Char → Bool
  | _, [] => true
  | [], _ :: _ => false
  | c :: cs, p :: ps => c == p && goHasPre cs ps

/-- Go `strings.Contains(s, sub)`: some position of `s` starts with `sub`. -/
def goContains (s sub : List Char) : Bool :=
  if goHasPre s sub then true
  else
    match s with
    | [] => false
    | _ :: cs => goContains cs sub

/-- A decoded OSC argument; the program type-asserts each argument to
`float32` and rejects the message on any other argument type. -/
inductive OscArg where
  | float32 (v : ℚ)
  | int32 (v : Int)
  | str (s : List Char)
  | other
deriving DecidableEq

/-- A decoded inbound OSC message: address plus ordered argument list. -/
structure OscMessage where
  Address : List Char
  Arguments : List OscArg
deriving DecidableEq

/-- `parseMessage` from src/main.go. -/
def parseMessage (msg : OscMessage) : TrackerData × Bool :=
  let parts := goSplit '/' msg.Address
  if parts.length < 4 ∨ parts.getD 1 [] ≠ "tracking".toList ∨
      parts.getD 2 [] ≠ "trackers".toList then
    (TrackerData.zero, false)
  else
    match atoiChars (parts.getD 3 []) with
    | none => (TrackerData.zero, false)
    | some id =>
        if msg.Arguments.length ≠ 3 then (TrackerData.zero, false)
        else
          match msg.Arguments.getD 0 .other, msg.Arguments.getD 1 .other,
              msg.Arguments.getD 2 .other with
          | .float32 a, .float32 b, .float32 c =>
              if goContains msg.Address ("position".toList) then
                ({ ID := id, Position := ⟨a, b, c⟩, Rotation := Vec3.zero }, true)
              else if goContains msg.Address ("rotation".toList) then
                ({ ID := id, Position := Vec3.zero, Rotation := ⟨a, b, c⟩ }, true)
              else (TrackerData.zero, false)
          | _, _, _ => (TrackerData.zero, false)

/-- An outbound OSC message handed to the OSC client. -/
structure OutMessage where
  Address : List Char
  Args : List ℚ
deriving DecidableEq

/-- The position message built by `forwardUpdatedData` for a record. -/
def positionMessage (d : TrackerData) : OutMessage :=
  ⟨"/tracking/trackers/".toList ++ intDecimal d.ID ++ "/position".toList,
    [d.Position.v0, d.Position.v1, d.Position.v2]⟩

/-- The rotation message built by `forwardUpdatedData` for a record. -/
def rotationMessage (d : TrackerData) : OutMessage :=
  ⟨"/tracking/trackers/".toList ++ intDecimal d.ID ++ "/rotation".toList,
    [d.Rotation.v0, d.Rotation.v1, d.Rotation.v2]⟩

/-- Body of the `forwardUpdatedData` loop for one record: the outbound
messages sent for it.  Transmission failures are logged and ignored by the
Go code, so they do not affect which messages are attempted. -/
def forwardUpdatedData (data : TrackerData) : List OutMessage :=
  (if data.Position ≠ Vec3.zero then [positionMessage data] else []) ++
  (if data.Rotation ≠ Vec3.zero then [rotationMessage data] else [])

-- Facts about the decimal rendering and `strconv.Atoi` model, used to
-- settle the Address Translator claims.

/-- The characters a decimal rendering can produce. -/
theorem digitChar_mem (d : Nat) : digitChar d ∈ ("0123456789".toList) := by
  unfold digitChar
  split_ifs <;> decide

/-- `strconv.Atoi`'s digit reader inverts the rendering of one digit. -/
theorem digitVal_digitChar (d : Nat) (h : d < 10) : digitVal (digitChar d) = some d := by
  interval_cases d <;> decide

/-- The digit reader processes list concatenation sequentially. -/
theorem parseNatDigitsAux_append (l1 l2 : List Char) (acc : Nat) :
    parseNatDigitsAux (l1 ++ l2) acc =
      (parseNatDigitsAux l1 acc).bind fun m => parseNatDigitsAux l2 m := by
  induction l1 generalizing acc with
  | nil => rfl
  | cons c cs ih =>
      simp only [List.cons_append, parseNatDigitsAux]
      cases digitVal c with
      | none => rfl
      | some d => simp [ih]

/-- Every character of a decimal rendering is a decimal digit. -/
theorem natDigitsAux_subset (fuel n : Nat) :
    ∀ c ∈ natDigitsAux fuel n, c ∈ ("0123456789".toList) := by
  induction fuel generalizing n with
  | zero => simp [natDigitsAux]
  | succ fuel ih =>
      intro c hc
      rw [natDigitsAux] at hc
      by_cases h10 : n < 10
      · rw [if_pos h10] at hc
        simp only [List.mem_singleton] at hc
        rw [hc]
        exact digitChar_mem n
      · rw [if_neg h10] at hc
        rcases List.mem_append.mp hc with hc | hc
        · exact ih (n / 10) c hc
        · simp only [List.mem_singleton] at hc
          rw [hc]
          exact digitChar_mem (n % 10)

/-- A decimal rendering with enough fuel is nonempty. -/
theorem natDigitsAux_ne_nil (fuel n : Nat) (h : n < fuel) : natDigitsAux fuel n ≠ [] := by
  cases fuel with
  | zero => omega
  | succ fuel =>
      rw [natDigitsAux]
      by_cases h10 : n < 10
      · simp [h10]
      · simp [h10]

/-- Reading back a decimal rendering recovers the rendered number. -/
theorem natDigitsAux_parse (fuel n : Nat) (h : n < fuel) :
    parseNatDigitsAux (natDigitsAux fuel n) 0 = some n := by
  induction fuel generalizing n with
  | zero => omega
  | succ fuel ih =>
      rw [natDigitsAux]
      by_cases h10 : n < 10
      · rw [if_pos h10]
        simp [parseNatDigitsAux, digitVal_digitChar n h10]
      · rw [if_neg h10]
        rw [parseNatDigitsAux_append, ih (n / 10) (by omega)]
        simp [parseNatDigitsAux, digitVal_digitChar (n % 10) (by omega)]
        omega

/-- `strconv.Atoi` inverts Go's `%d` rendering of an in-range natural. -/
theorem atoiChars_natDigits (n : Nat) (hn : n ≤ 2 ^ 63 - 1) :
    atoiChars (natDigits n) = some (n : Int) := by
  have hne : natDigits n ≠ [] := natDigitsAux_ne_nil (n + 1) n (by omega)
  have hp : parseNatDigitsAux (natDigits n) 0 = some n :=
    natDigitsAux_parse (n + 1) n (by omega)
  obtain ⟨c, cs, hcons⟩ := List.exists_cons_of_ne_nil hne
  have hcmem : c ∈ ("0123456789".toList) :=
    natDigitsAux_subset (n + 1) n c (by rw [show natDigitsAux (n+1) n = natDigits n from rfl, hcons]; exact List.mem_cons_self c cs)
  have hc1 : ¬(c = '-') := by intro he; rw [he] at hcmem; revert hcmem; decide
  have hc2 : ¬(c = '+') := by intro he; rw [he] at hcmem; revert hcmem; decide
  rw [hcons, atoiChars, if_neg hc1, if_neg hc2, ← hcons, hp]
  simp
  omega

-- Facts about the `strings.Split` and `strings.Contains` models.

/-- Splitting a list that starts with the separator yields a leading empty
segment. -/
theorem goSplit_sep_cons (sep : Char) (ys : List Char) :
    goSplit sep (sep :: ys) = [] :: goSplit sep ys := by
  simp [goSplit]

/-- A separator-free list is a single segment. -/
theorem goSplit_no_sep (sep : Char) (xs : List Char) (h : sep ∉ xs) :
    goSplit sep xs = [xs] := by
  induction xs with
  | nil => rfl
  | cons c cs ih =>
      have hc : ¬(c = sep) := fun he => h (he ▸ List.mem_cons_self c cs)
      have hcs : sep ∉ cs := fun hm => h (List.mem_cons_of_mem c hm)
      rw [goSplit, if_neg hc, ih hcs]

/-- Splitting past a separator-free chunk peels it off as one segment. -/
theorem goSplit_append (sep : Char) (xs ys : List Char) (h : sep ∉ xs) :
    goSplit sep (xs ++ sep :: ys) = xs :: goSplit sep ys := by
  induction xs with
  | nil => simpa using goSplit_sep_cons sep ys
  | cons c cs ih =>
      have hc : ¬(c = sep) := fun he => h (he ▸ List.mem_cons_self c cs)
      have hcs : sep ∉ cs := fun hm => h (List.mem_cons_of_mem c hm)
      rw [List.cons_append, goSplit, if_neg hc, ih hcs]

/-- A list starts with itself followed by anything. -/
theorem goHasPre_self_append (sub r : List Char) : goHasPre (sub ++ r) sub = true := by
  induction sub with
  | nil => simp [goHasPre]
  | cons c cs ih => simp [goHasPre, ih]

/-- `strings.Contains` holds when the pattern is a leading chunk. -/
theorem goContains_self_append (sub r : List Char) : goContains (sub ++ r) sub = true := by
  rw [goContains.eq_def, if_pos (goHasPre_self_append sub r)]

/-- `strings.Contains` is preserved by prepending characters. -/
theorem goContains_append_left (s t sub : List Char) (h : goContains t sub = true) :
    goContains (s ++ t) sub = true := by
  induction s with
  | nil => exact h
  | cons c cs ih =>
      rw [List.cons_append, goContains.eq_def]
      split
      · rfl
      · exact ih

/-- An anchored match only uses characters of the scanned list. -/
theorem goHasPre_subset (s sub : List Char) (h : goHasPre s sub = true) :
    ∀ c ∈ sub, c ∈ s := by
  induction sub generalizing s with
  | nil => simp
  | cons p ps ih =>
      cases s with
      | nil => simp [goHasPre] at h
      | cons c cs =>
          simp only [goHasPre, Bool.and_eq_true, beq_iff_eq] at h
          obtain ⟨rfl, h2⟩ := h
          intro x hx
          rcases List.mem_cons.mp hx with rfl | hx
          · exact List.mem_cons_self x cs
          · exact List.mem_cons_of_mem c (ih cs h2 x hx)

/-- A contained pattern only uses characters of the scanned list. -/
theorem goContains_subset (s sub : List Char) (h : goContains s sub = true) :
    ∀ c ∈ sub, c ∈ s := by
  induction s with
  | nil =>
      rw [goContains.eq_def] at h
      cases sub with
      | nil => simp
      | cons p ps => simp [goHasPre] at h
  | cons c cs ih =>
      rw [goContains.eq_def] at h
      split at h
      · next hpre => exact goHasPre_subset (c :: cs) sub hpre
      · intro x hx
        exact List.mem_cons_of_mem c (ih h x hx)

/-- `strings.Contains` fails when some pattern character is absent. -/
theorem goContains_eq_false (s sub : List Char) (c : Char) (hc : c ∈ sub) (habs : c ∉ s) :
    goContains s sub = false := by
  cases hgc : goContains s sub with
  | false => rfl
  | true => exact absurd (goContains_subset s sub hgc c hc) habs

/-- An address of the wire addressing scheme of the spec:
`/tracking/trackers/{id}/{kind}` with the id rendered in decimal.  Used to
compare the Address Translator against the scheme it is specified to
accept. -/
def schemeAddr (n : Nat) (kind : List Char) : List Char :=
  '/' :: ("tracking".toList ++ '/' :: ("trackers".toList ++ '/' :: (natDigits n ++ '/' :: kind)))

/-- A decimal id contains no path separator. -/
theorem natDigits_no_slash (n : Nat) : '/' ∉ natDigits n := fun h =>
  absurd (natDigitsAux_subset (n + 1) n '/' h) (by decide)

/-- Splitting a scheme address yields exactly the five expected segments. -/
theorem goSplit_schemeAddr (n : Nat) (kind : List Char) (hk : '/' ∉ kind) :
    goSplit '/' (schemeAddr n kind) =
      [[], "tracking".toList, "trackers".toList, natDigits n, kind] := by
  unfold schemeAddr
  rw [goSplit_sep_cons]
  rw [goSplit_append '/' _ _ (by decide)]
  rw [goSplit_append '/' _ _ (by decide)]
  rw [goSplit_append '/' _ _ (natDigits_no_slash n)]
  rw [goSplit_no_sep '/' kind hk]

/-- Evaluation of the Address Translator on a scheme address with three
float arguments: everything up to the payload-kind classification is
accepted, and the outcome depends only on the substring checks. -/
theorem parseMessage_scheme (n : Nat) (hn : n ≤ 2 ^ 63 - 1) (kind : List Char)
    (hk : '/' ∉ kind) (a b c : ℚ) :
    parseMessage ⟨schemeAddr n kind, [.float32 a, .float32 b, .float32 c]⟩ =
      (if goContains (schemeAddr n kind) ("position".toList) then
        ({ ID := (n : Int), Position := ⟨a, b, c⟩, Rotation := Vec3.zero }, true)
      else if goContains (schemeAddr n kind) ("rotation".toList) then
        ({ ID := (n : Int), Position := Vec3.zero, Rotation := ⟨a, b, c⟩ }, true)
      else (TrackerData.zero, false)) := by
  simp only [parseMessage]
  rw [goSplit_schemeAddr n kind hk]
  simp only [List.length_cons, List.length_nil, List.getD, List.get?_cons_succ,
    List.get?_cons_zero, Option.getD_some]
  rw [if_neg (by norm_num)]
  rw [atoiChars_natDigits n hn]
  norm_num

/-- A scheme address is a fixed prefix followed by the kind chunk. -/
theorem schemeAddr_eq_append (n : Nat) (kind : List Char) :
    schemeAddr n kind =
      ('/' :: ("tracking".toList ++ '/' :: ("trackers".toList ++ '/' :: (natDigits n ++ ['/'])))) ++ kind := by
  simp [schemeAddr]

/-- `strings.Contains` finds the pattern in itself. -/
theorem goContains_self (sub : List Char) : goContains sub sub = true := by
  have h := goContains_self_append sub []
  simpa using h

/-- The letter p never occurs in a rotation scheme address. -/
theorem p_not_mem_schemeAddr_rotation (n : Nat) : 'p' ∉ schemeAddr n ("rotation".toList) := by
  unfold schemeAddr
  intro h
  simp only [List.mem_cons, List.mem_append] at h
  rcases h with h | h
  · exact absurd h (by decide)
  rcases h with h | h
  · exact absurd h (by decide)
  rcases h with h | h
  · exact absurd h (by decide)
  rcases h with h | h
  · exact absurd h (by decide)
  rcases h with h | h
  · exact absurd h (by decide)
  rcases h with h | h
  · exact absurd (natDigitsAux_subset (n + 1) n 'p' h) (by decide)
  rcases h with h | h
  · exact absurd h (by decide)
  · exact absurd h (by decide)

/-- C7, counterexample: the position address whose id segment is `-1`
carries a negative id, so the claim predicts rejection, but the translator
accepts it (Go's `strconv.Atoi` parses signed integers) and returns id −1. -/
theorem C7_counterexample :
    parseMessage ⟨"/tracking/trackers/-1/position".toList,
        [.float32 1, .float32 2, .float32 3]⟩
      = ({ ID := -1, Position := ⟨1, 2, 3⟩, Rotation := Vec3.zero }, true) := by
  decide

/-- C7, amended: the Address Translator accepts a message only if its
address splits into segments with segment 1 "tracking", segment 2
"trackers", and segment 3 parsing as an integer id under `strconv.Atoi` —
which admits a leading sign, so negative ids are accepted rather than
rejected; any deviation yields accepted = false with no error raised. -/
theorem C7_theorem (msg : OscMessage) (td : TrackerData)
    (h : parseMessage msg = (td, true)) :
    4 ≤ (goSplit '/' msg.Address).length ∧
    (goSplit '/' msg.Address).getD 1 [] = "tracking".toList ∧
    (goSplit '/' msg.Address).getD 2 [] = "trackers".toList ∧
    atoiChars ((goSplit '/' msg.Address).getD 3 []) = some td.ID := by
  simp only [parseMessage] at h
  split at h
  · exact absurd h (by simp)
  · next hcond =>
      push_neg at hcond
      obtain ⟨h1, h2, h3⟩ := hcond
      split at h
      · exact absurd h (by simp)
      · next id heq =>
          split at h
          · exact absurd h (by simp)
          · split at h
            · split at h
              · injection h with htd _
                subst htd
                exact ⟨by omega, h2, h3, heq⟩
              · split at h
                · injection h with htd _
                  subst htd
                  exact ⟨by omega, h2, h3, heq⟩
                · exact absurd h (by simp)
            · exact absurd h (by simp)

/-- C7, witness: a well-formed position message for id 5 is accepted, and
its address satisfies the segment conditions with the parsed id. -/
theorem C7_witness :
    4 ≤ (goSplit '/' ("/tracking/trackers/5/position".toList)).length ∧
    (goSplit '/' ("/tracking/trackers/5/position".toList)).getD 1 [] = "tracking".toList ∧
    (goSplit '/' ("/tracking/trackers/5/position".toList)).getD 2 [] = "trackers".toList ∧
    atoiChars ((goSplit '/' ("/tracking/trackers/5/position".toList)).getD 3 []) = some 5 :=
  C7_theorem ⟨"/tracking/trackers/5/position".toList, [.float32 1, .float32 2, .float32 3]⟩
    { ID := 5, Position := ⟨1, 2, 3⟩, Rotation := Vec3.zero } (by decide)

/-- C9, counterexample: the address `/tracking/trackers/5/position/extra`
does not match the wire scheme (an extra trailing segment), yet the
translator accepts it — "all other message shapes are rejected" fails. -/
theorem C9_counterexample :
    parseMessage ⟨"/tracking/trackers/5/position/extra".toList,
        [.float32 1, .float32 2, .float32 3]⟩
      = ({ ID := 5, Position := ⟨1, 2, 3⟩, Rotation := Vec3.zero }, true) := by
  decide

/-- C9, amended: every message whose address matches the wire scheme with an
in-range non-negative id and exactly three float32 arguments is accepted,
with the parsed id and the correct field populated; when the address
contains both substrings, "position" is checked first and wins.  (The
converse of the claim fails: acceptance is broader than the scheme, per the
counterexample.) -/
theorem C9_theorem (n : Nat) (h : n < 2 ^ 63) (a b c : ℚ) :
    parseMessage ⟨schemeAddr n ("position".toList), [.float32 a, .float32 b, .float32 c]⟩
        = ({ ID := (n : Int), Position := ⟨a, b, c⟩, Rotation := Vec3.zero }, true) ∧
    parseMessage ⟨schemeAddr n ("rotation".toList), [.float32 a, .float32 b, .float32 c]⟩
        = ({ ID := (n : Int), Position := Vec3.zero, Rotation := ⟨a, b, c⟩ }, true) ∧
    parseMessage ⟨schemeAddr n ("position-rotation".toList), [.float32 a, .float32 b, .float32 c]⟩
        = ({ ID := (n : Int), Position := ⟨a, b, c⟩, Rotation := Vec3.zero }, true) := by
  have hn : n ≤ 2 ^ 63 - 1 := by omega
  refine ⟨?_, ?_, ?_⟩
  · have hpos : goContains (schemeAddr n ("position".toList)) ("position".toList) = true := by
      rw [schemeAddr_eq_append]
      exact goContains_append_left _ _ _ (goContains_self _)
    rw [parseMessage_scheme n hn _ (by decide) a b c, if_pos hpos]
  · have hpos : goContains (schemeAddr n ("rotation".toList)) ("position".toList) = false :=
      goContains_eq_false _ _ 'p' (by decide) (p_not_mem_schemeAddr_rotation n)
    have hrot : goContains (schemeAddr n ("rotation".toList)) ("rotation".toList) = true := by
      rw [schemeAddr_eq_append]
      exact goContains_append_left _ _ _ (goContains_self _)
    rw [parseMessage_scheme n hn _ (by decide) a b c, if_neg (by rw [hpos]; decide), if_pos hrot]
  · have hpos : goContains (schemeAddr n ("position-rotation".toList)) ("position".toList)
        = true := by
      rw [schemeAddr_eq_append,
        show ("position-rotation".toList) = "position".toList ++ ("-rotation".toList) by decide]
      exact goContains_append_left _ _ _ (goContains_self_append _ _)
    rw [parseMessage_scheme n hn _ (by decide) a b c, if_pos hpos]

/-- C9, witness: the scheme addresses for id 7 with arguments (1,2,3) are
accepted with the expected field population. -/
theorem C9_witness :
    (7 : Nat) < 2 ^ 63 ∧
    (parseMessage ⟨schemeAddr 7 ("position".toList), [.float32 1, .float32 2, .float32 3]⟩
        = ({ ID := 7, Position := ⟨1, 2, 3⟩, Rotation := Vec3.zero }, true) ∧
     parseMessage ⟨schemeAddr 7 ("rotation".toList), [.float32 1, .float32 2, .float32 3]⟩
        = ({ ID := 7, Position := Vec3.zero, Rotation := ⟨1, 2, 3⟩ }, true) ∧
     parseMessage ⟨schemeAddr 7 ("position-rotation".toList), [.float32 1, .float32 2, .float32 3]⟩
        = ({ ID := 7, Position := ⟨1, 2, 3⟩, Rotation := Vec3.zero }, true)) :=
  ⟨by decide, C9_theorem 7 (by decide) 1 2 3⟩

/-- Left cancellation for list concatenation over characters. -/
theorem charList_append_cancel (p a b : List Char) (h : p ++ a = p ++ b) : a = b := by
  induction p with
  | nil => exact h
  | cons c cs ih =>
      injection h with _ h2
      exact ih h2

/-- The two outbound messages for a record have different addresses. -/
theorem positionMessage_ne_rotationMessage (d : TrackerData) :
    positionMessage d ≠ rotationMessage d := by
  intro h
  have ha : ("/tracking/trackers/".toList ++ intDecimal d.ID) ++ "/position".toList
      = ("/tracking/trackers/".toList ++ intDecimal d.ID) ++ "/rotation".toList := by
    have hadr := congrArg OutMessage.Address h
    simp only [positionMessage, rotationMessage, List.append_assoc] at hadr
    exact hadr
  have hsuffix := charList_append_cancel _ _ _ ha
  exact absurd hsuffix (by decide)

/-- C8, confirmed: for every record handed to the Forward Emitter, the
position message is emitted if and only if the record's position is not the
all-zero vector, and the rotation message is emitted if and only if the
record's rotation is not the all-zero vector; an exactly-zero field is
never emitted. -/
theorem C8_theorem (d : TrackerData) :
    (positionMessage d ∈ forwardUpdatedData d ↔ d.Position ≠ Vec3.zero) ∧
    (rotationMessage d ∈ forwardUpdatedData d ↔ d.Rotation ≠ Vec3.zero) := by
  have hne := positionMessage_ne_rotationMessage d
  have hne2 : rotationMessage d ≠ positionMessage d := Ne.symm hne
  unfold forwardUpdatedData
  by_cases hp : d.Position = Vec3.zero <;> by_cases hr : d.Rotation = Vec3.zero <;>
    simp [hp, hr, hne, hne2]
